import Mathlib

/-!
Shallow embedding of the ZeroTier One node control plane
(`node/Node.cpp`): the `Node` object's registry of joined networks, the
background-task engine, the ingress entry points and their C-API
wrappers, identity bootstrap at construction, and version gossip.

Machine integers from the source (`uint64_t`, `unsigned int`) are
modelled as `Nat` with explicit wrap-around (`% 2^64`, `% 2^32`) at the
operations where the source performs modular machine arithmetic.
External subsystems (switch, topology, multicaster, identity
cryptography, data store) are modelled as oracle parameters describing
the outcome of each call the core makes into them, since their code is
outside the component under verification.
-/

namespace ZeroTier

/-- `2^64`, the modulus of `uint64_t` arithmetic. -/
def W64 : Nat := 2 ^ 64

/-- `2^32`, the modulus of `unsigned int` (32-bit) arithmetic. -/
def W32 : Nat := 2 ^ 32

/-- `uint64_t` subtraction `a - b` (wraps modulo `2^64`), for `a, b < 2^64`. -/
def sub64 (a b : Nat) : Nat := (a + (W64 - b % W64)) % W64

/-- `uint64_t` addition `a + b` (wraps modulo `2^64`). -/
def add64 (a b : Nat) : Nat := (a + b) % W64

theorem sub64_eq_of_le {a b : Nat} (hba : b ≤ a) (ha : a < W64) :
    sub64 a b = a - b := by
  have hb : b % W64 = b := Nat.mod_eq_of_lt (lt_of_le_of_lt hba ha)
  have h1 : a + (W64 - b) = (a - b) + W64 := by
    have : b ≤ W64 := le_of_lt (lt_of_le_of_lt hba ha)
    omega
  rw [sub64, hb, h1, Nat.add_mod_right]
  exact Nat.mod_eq_of_lt (by omega)

theorem add64_eq_of_lt {a b : Nat} (h : a + b < W64) : add64 a b = a + b :=
  Nat.mod_eq_of_lt h

/-- The public result taxonomy (`ZT1_ResultCode` from the C API). -/
inductive ZT1_ResultCode where
  | OK
  | ERROR_NETWORK_NOT_FOUND
  | ERROR_PACKET_INVALID
  | FATAL_ERROR_INTERNAL
  | FATAL_ERROR_OUT_OF_MEMORY
  | FATAL_ERROR_DATA_STORE_FAILED
deriving DecidableEq, Repr

/-- Compile-time constants from `Constants.hpp` (not under the sources of
this component, so kept abstract): `ZT_PING_CHECK_INVERVAL`,
`ZT_CORE_TIMER_TASK_GRANULARITY`, `ZT_CORE_DESPERATION_INCREMENT`,
`ZT_HOUSEKEEPING_PERIOD`, `ZT_NETWORK_AUTOCONF_DELAY`. -/
structure Consts where
  pingCheckInterval : Nat
  timerGranularity : Nat
  desperationIncrement : Nat
  housekeepingPeriod : Nat
  autoconfDelay : Nat
deriving DecidableEq, Repr

/-- Membership object for one virtual network. The `Network` class itself
is outside this component; the registry-visible parts are its network id,
its multicast subscriptions (`(groupMac, adi)` pairs) and its
last-config-update timestamp. Subscription insertion and removal are
modelled from the spec: add the pair if absent, remove it if present. -/
structure Network where
  nwid : Nat
  multicastSubscriptions : List (Nat × Nat)
  lastConfigUpdate : Nat
deriving DecidableEq, Repr

/-- `new Network(RR, nwid)`: a fresh membership object with no
subscriptions. -/
def Network.fresh (nwid : Nat) : Network := ⟨nwid, [], 0⟩

/-- Modelled from the spec: `Network::multicastSubscribe` (class outside
this component) — add `(groupMac, adi)` to the subscriptions if absent. -/
def Network.mcSubscribe (n : Network) (g adi : Nat) : Network :=
  if (g, adi) ∈ n.multicastSubscriptions then n
  else { n with multicastSubscriptions := n.multicastSubscriptions ++ [(g, adi)] }

/-- Modelled from the spec: `Network::multicastUnsubscribe` — remove
`(groupMac, adi)` from the subscriptions. -/
def Network.mcUnsubscribe (n : Network) (g adi : Nat) : Network :=
  { n with multicastSubscriptions :=
      n.multicastSubscriptions.filter (fun p => p ≠ (g, adi)) }

/-- The mutable fields of `Node` relevant to the control plane:
`_now`, `_startTimeAfterInactivity`, `_lastPingCheck`,
`_lastHousekeepingRun`, `_coreDesperation`, `_newestVersionSeen`, and the
network registry `_networks` (a map from 64-bit network id to the
joined `Network`). -/
structure NodeState where
  now : Nat
  startTimeAfterInactivity : Nat
  lastPingCheck : Nat
  lastHousekeepingRun : Nat
  coreDesperation : Nat
  newestVersionSeen : Nat × Nat × Nat
  networks : Nat → Option Network

/-- The field state established by the `Node::Node` member initializers:
`_now(now)`, the three timestamps zero, desperation zero, the version
triple set to the compiled-in `ZEROTIER_ONE_VERSION_*` values (from
`version.h`, kept abstract), and an empty registry. -/
def NodeState.init (now : Nat) (compiledVersion : Nat × Nat × Nat) : NodeState :=
  { now := now
    startTimeAfterInactivity := 0
    lastPingCheck := 0
    lastHousekeepingRun := 0
    coreDesperation := 0
    newestVersionSeen := compiledVersion
    networks := fun _ => none }

/-- `Node::join(nwid)`: `_networks[nwid]` inserts a null entry if absent,
which is then filled with a fresh `Network`; a present entry is left
untouched. Returns `ZT1_RESULT_OK`. -/
def Node.join (s : NodeState) (nwid : Nat) : NodeState × ZT1_ResultCode :=
  match s.networks nwid with
  | some _ => (s, ZT1_ResultCode.OK)
  | none =>
      ({ s with networks := fun k => if k = nwid then some (Network.fresh nwid) else s.networks k },
       ZT1_ResultCode.OK)

/-- Outcome of `Node::leave`: the updated state, the list of network ids
on which `Network::destroy()` was invoked, and the value returned by the
function — `none` because the source reaches the end of this
non-`void` function without executing any `return` statement. -/
structure LeaveResult where
  state : NodeState
  destroyed : List Nat
  ret : Option ZT1_ResultCode

/-- `Node::leave(nwid)`: if present, call `destroy()` on the network and
erase it from `_networks`; if absent, do nothing. The source omits a
`return` on both paths, so no result value is produced. -/
def Node.leave (s : NodeState) (nwid : Nat) : LeaveResult :=
  match s.networks nwid with
  | some _ =>
      { state := { s with networks := fun k => if k = nwid then none else s.networks k }
        destroyed := [nwid]
        ret := none }
  | none => { state := s, destroyed := [], ret := none }

/-- `Node::multicastSubscribe(nwid, group, adi)`: update the network's
subscriptions if the network is present, else a no-op. (Like `leave`,
the source omits the `return`; only the state effect is modelled where
the registry is concerned.) -/
def Node.multicastSubscribe (s : NodeState) (nwid g adi : Nat) : NodeState :=
  match s.networks nwid with
  | some n =>
      { s with networks := fun k => if k = nwid then some (n.mcSubscribe g (adi % W32)) else s.networks k }
  | none => s

/-- `Node::multicastUnsubscribe(nwid, group, adi)`: symmetric to
subscribe. -/
def Node.multicastUnsubscribe (s : NodeState) (nwid g adi : Nat) : NodeState :=
  match s.networks nwid with
  | some n =>
      { s with networks := fun k => if k = nwid then some (n.mcUnsubscribe g (adi % W32)) else s.networks k }
  | none => s

/-- `Node::networkConfig(nwid)`: a heap snapshot of the network's
external config when present (modelled by the `Network` value), null
when absent. -/
def Node.networkConfig (s : NodeState) (nwid : Nat) : Option Network :=
  s.networks nwid

/-- Outcomes of the calls the background tick makes into external
subsystems. `pingResult` is the peer-iteration phase
(`Topology::eachPeer` with `_PingPeersThatNeedPing`): either it throws,
or it completes yielding the functor's `lastReceiveFromSupernode`
accumulator (the maximum `lastReceive()` over supernode peers, `0` if
none). `autoconfThrows` is the network-iteration block
(`requestConfiguration` calls). `topologyCleanThrows` and
`multicasterCleanThrows` are `Topology::clean` and `Multicaster::clean`.
`switchTimer` is `Switch::doTimerTasks(now)`: either it throws, or it
returns its requested relative interval. -/
structure TickOracle where
  pingResult : Except Unit Nat
  autoconfThrows : Bool
  topologyCleanThrows : Bool
  multicasterCleanThrows : Bool
  switchTimer : Except Unit Nat

/-- Outcome of `Node::processBackgroundTasks`: the state after the call,
the returned result code, the value written to
`*nextBackgroundTaskDeadline` (`none` when the call returned before the
write), and whether the ping-check block / housekeeping block was
entered on this tick. -/
structure TickResult where
  state : NodeState
  result : ZT1_ResultCode
  nextDeadline : Option Nat
  ranPing : Bool
  ranHousekeeping : Bool

/-- The final statement of `Node::processBackgroundTasks`:
`*nextBackgroundTaskDeadline = now + max(min(ZT_PING_CHECK_INVERVAL,
RR->sw->doTimerTasks(now)), ZT_CORE_TIMER_TASK_GRANULARITY)`, with the
`doTimerTasks` exception mapped to internal error. -/
def tickDeadlinePhase (C : Consts) (s : NodeState) (now : Nat) (o : TickOracle)
    (ranPing ranHousekeeping : Bool) : TickResult :=
  match o.switchTimer with
  | Except.error _ => ⟨s, ZT1_ResultCode.FATAL_ERROR_INTERNAL, none, ranPing, ranHousekeeping⟩
  | Except.ok interval =>
      ⟨s, ZT1_ResultCode.OK,
        some (add64 now (max (min C.pingCheckInterval interval) C.timerGranularity)),
        ranPing, ranHousekeeping⟩

/-- The housekeeping block of `Node::processBackgroundTasks` (gate on
`ZT_HOUSEKEEPING_PERIOD`, `_lastHousekeepingRun = now` first, then
`Topology::clean` and `Multicaster::clean` each in its own try/catch),
followed by the deadline computation. -/
def tickHousekeepingPhase (C : Consts) (s : NodeState) (now : Nat) (o : TickOracle)
    (ranPing : Bool) : TickResult :=
  if C.housekeepingPeriod ≤ sub64 now s.lastHousekeepingRun then
    let s1 := { s with lastHousekeepingRun := now }
    if o.topologyCleanThrows then
      ⟨s1, ZT1_ResultCode.FATAL_ERROR_INTERNAL, none, ranPing, true⟩
    else if o.multicasterCleanThrows then
      ⟨s1, ZT1_ResultCode.FATAL_ERROR_INTERNAL, none, ranPing, true⟩
    else tickDeadlinePhase C s1 now o ranPing true
  else tickDeadlinePhase C s now o ranPing false

/-- The start-of-activity statement of the ping-check block: advance
`_startTimeAfterInactivity` to `now` when
`now - _startTimeAfterInactivity > ZT_PING_CHECK_INVERVAL * 3`. -/
def pingStartAdvance (C : Consts) (s : NodeState) (now : Nat) : NodeState :=
  if C.pingCheckInterval * 3 < sub64 now s.startTimeAfterInactivity then
    { s with startTimeAfterInactivity := now }
  else s

/-- The `_coreDesperation` assignment of the ping-check block: the
`unsigned int` cast of
`(now - max(_startTimeAfterInactivity, lastReceiveFromSupernode)) /
(ZT_PING_CHECK_INVERVAL * ZT_CORE_DESPERATION_INCREMENT)`. -/
def pingDesperationUpdate (C : Consts) (s : NodeState) (now lr : Nat) : NodeState :=
  { s with coreDesperation :=
      (sub64 now (max s.startTimeAfterInactivity lr) /
        (C.pingCheckInterval * C.desperationIncrement)) % W32 }

/-- `Node::processBackgroundTasks(now, nextBackgroundTaskDeadline)`:
set `_now = now`; under the background lock, run the ping-check block
when `now - _lastPingCheck >= ZT_PING_CHECK_INVERVAL` (gate update
first, then the start-of-activity advance, then the peer iteration with
the desperation update, then the autoconf request loop); then the
housekeeping block; then the deadline write. Each try/catch maps a
subsystem exception to `ZT1_RESULT_FATAL_ERROR_INTERNAL` and returns,
skipping the phases that follow. -/
def processBackgroundTasks (C : Consts) (s : NodeState) (now : Nat)
    (o : TickOracle) : TickResult :=
  let s0 := { s with now := now }
  if C.pingCheckInterval ≤ sub64 now s0.lastPingCheck then
    let s2 := pingStartAdvance C { s0 with lastPingCheck := now } now
    match o.pingResult with
    | Except.error _ => ⟨s2, ZT1_ResultCode.FATAL_ERROR_INTERNAL, none, true, false⟩
    | Except.ok lastReceiveFromSupernode =>
        let s3 := pingDesperationUpdate C s2 now lastReceiveFromSupernode
        if o.autoconfThrows then
          ⟨s3, ZT1_ResultCode.FATAL_ERROR_INTERNAL, none, true, false⟩
        else tickHousekeepingPhase C s3 now o true
  else tickHousekeepingPhase C s0 now o false

/-- How a call into the switch from an ingress entry point ends:
normal completion, a `std::bad_alloc`, or another exception. -/
inductive SwitchOutcome where
  | ok
  | badAlloc
  | otherThrow
deriving DecidableEq, Repr

/-- Outcome of an ingress entry point (through its C-API wrapper):
state, result code, the final value of `*nextBackgroundTaskDeadline`,
and whether the switch subsystem was invoked. -/
structure IngressResult where
  state : NodeState
  result : ZT1_ResultCode
  deadline : Nat
  switchInvoked : Bool

/-- `ZT1_Node_processWirePacket` wrapping `Node::processWirePacket`:
if `now >= *nextBackgroundTaskDeadline`, run the background tick first
and return its result if not OK; otherwise `_now = now`. Then hand the
packet to `Switch::onRemotePacket`; the wrapper maps `std::bad_alloc`
to out-of-memory and any other exception to packet-invalid; on normal
completion return OK. -/
def processWirePacket (C : Consts) (s : NodeState) (now deadline : Nat)
    (o : TickOracle) (sw : SwitchOutcome) : IngressResult :=
  if deadline ≤ now then
    let r := processBackgroundTasks C s now o
    if r.result ≠ ZT1_ResultCode.OK then
      ⟨r.state, r.result, r.nextDeadline.getD deadline, false⟩
    else
      match sw with
      | SwitchOutcome.ok =>
          ⟨r.state, ZT1_ResultCode.OK, r.nextDeadline.getD deadline, true⟩
      | SwitchOutcome.badAlloc =>
          ⟨r.state, ZT1_ResultCode.FATAL_ERROR_OUT_OF_MEMORY, r.nextDeadline.getD deadline, true⟩
      | SwitchOutcome.otherThrow =>
          ⟨r.state, ZT1_ResultCode.ERROR_PACKET_INVALID, r.nextDeadline.getD deadline, true⟩
  else
    let s0 := { s with now := now }
    match sw with
    | SwitchOutcome.ok => ⟨s0, ZT1_ResultCode.OK, deadline, true⟩
    | SwitchOutcome.badAlloc =>
        ⟨s0, ZT1_ResultCode.FATAL_ERROR_OUT_OF_MEMORY, deadline, true⟩
    | SwitchOutcome.otherThrow =>
        ⟨s0, ZT1_ResultCode.ERROR_PACKET_INVALID, deadline, true⟩

/-- `Node::processVirtualNetworkFrame` (through
`ZT1_Node_processVirtualNetworkFrame`): the same deadline-check preamble
as the wire-packet path; then, inside a try/catch, look up the network
by `nwid` — absent returns `ZT1_RESULT_ERROR_NETWORK_NOT_FOUND`, present
hands the frame to `Switch::onLocalEthernet`, and any exception from the
switch is caught inside the method and mapped to
`ZT1_RESULT_FATAL_ERROR_INTERNAL`. -/
def processVirtualNetworkFrame (C : Consts) (s : NodeState) (now deadline nwid : Nat)
    (o : TickOracle) (swThrows : Bool) : IngressResult :=
  if deadline ≤ now then
    let r := processBackgroundTasks C s now o
    if r.result ≠ ZT1_ResultCode.OK then
      ⟨r.state, r.result, r.nextDeadline.getD deadline, false⟩
    else
      match r.state.networks nwid with
      | some _ =>
          if swThrows then
            ⟨r.state, ZT1_ResultCode.FATAL_ERROR_INTERNAL, r.nextDeadline.getD deadline, true⟩
          else ⟨r.state, ZT1_ResultCode.OK, r.nextDeadline.getD deadline, true⟩
      | none =>
          ⟨r.state, ZT1_ResultCode.ERROR_NETWORK_NOT_FOUND, r.nextDeadline.getD deadline, false⟩
  else
    let s0 := { s with now := now }
    match s0.networks nwid with
    | some _ =>
        if swThrows then
          ⟨s0, ZT1_ResultCode.FATAL_ERROR_INTERNAL, deadline, true⟩
        else ⟨s0, ZT1_ResultCode.OK, deadline, true⟩
    | none => ⟨s0, ZT1_ResultCode.ERROR_NETWORK_NOT_FOUND, deadline, false⟩

/-- A registry-mutating call on the node, for reasoning about call
sequences: `join`, `leave`, `multicastSubscribe`,
`multicastUnsubscribe`. -/
inductive MembershipOp where
  | join (nwid : Nat)
  | leave (nwid : Nat)
  | mcSub (nwid g adi : Nat)
  | mcUnsub (nwid g adi : Nat)
deriving DecidableEq, Repr

/-- State effect of one membership call. -/
def applyMembershipOp (s : NodeState) (op : MembershipOp) : NodeState :=
  match op with
  | MembershipOp.join nwid => (Node.join s nwid).1
  | MembershipOp.leave nwid => (Node.leave s nwid).state
  | MembershipOp.mcSub nwid g adi => Node.multicastSubscribe s nwid g adi
  | MembershipOp.mcUnsub nwid g adi => Node.multicastUnsubscribe s nwid g adi

/-- State after a sequence of membership calls. -/
def applyMembershipOps (s : NodeState) (ops : List MembershipOp) : NodeState :=
  ops.foldl applyMembershipOp s

/-- Whether a membership call is `leave nwid`. -/
def MembershipOp.isLeaveOf (op : MembershipOp) (nwid : Nat) : Bool :=
  match op with
  | MembershipOp.leave m => m = nwid
  | _ => false

/-- Whether a membership call is `join nwid`. -/
def MembershipOp.isJoinOf (op : MembershipOp) (nwid : Nat) : Bool :=
  match op with
  | MembershipOp.join m => m = nwid
  | _ => false

/-- Modelled from the spec: `Peer::compareVersion` (declared outside the
sources of this component) — strict lexicographic comparison of two
`(major, minor, revision)` triples, positive when the first strictly
exceeds the second, negative when strictly below, zero when equal. -/
def compareVersion (maj min1 rev vmaj vmin vrev : Nat) : Int :=
  if maj > vmaj then 1
  else if maj < vmaj then -1
  else if min1 > vmin then 1
  else if min1 < vmin then -1
  else if rev > vrev then 1
  else if rev < vrev then -1
  else 0

/-- Strict lexicographic order on version triples, as a Boolean. -/
def versionLt (a b : Nat × Nat × Nat) : Bool :=
  a.1 < b.1 ∨ (a.1 = b.1 ∧ (a.2.1 < b.2.1 ∨ (a.2.1 = b.2.1 ∧ a.2.2 < b.2.2)))

/-- `Node::postNewerVersionIfNewer(major, minor, rev)`: if
`Peer::compareVersion` ranks the seen triple strictly above
`_newestVersionSeen`, store it and post
`ZT1_EVENT_SAW_MORE_RECENT_VERSION`; the Boolean records whether the
event was posted. -/
def Node.postNewerVersionIfNewer (s : NodeState) (maj min1 rev : Nat) :
    NodeState × Bool :=
  if 0 < compareVersion maj min1 rev s.newestVersionSeen.1
      s.newestVersionSeen.2.1 s.newestVersionSeen.2.2 then
    ({ s with newestVersionSeen := (maj, min1, rev) }, true)
  else (s, false)

/-- State after a sequence of `postNewerVersionIfNewer` calls. -/
def applyVersionCalls (s : NodeState) (calls : List (Nat × Nat × Nat)) : NodeState :=
  calls.foldl (fun t c => (Node.postNewerVersionIfNewer t c.1 c.2.1 c.2.2).1) s

/-- How the construction phases after identity bootstrap (subsystem
construction, root topology, the `UP` event) end: normally, with
`std::bad_alloc`, with `std::runtime_error`, or with another
exception. -/
inductive LatePhaseOutcome where
  | ok
  | badAlloc
  | runtimeError
  | otherThrow
deriving DecidableEq, Repr

/-- Oracle for the constructor's calls into external code: whether the
string loaded as `identity.secret` parses (`Identity::fromString`) and
has its private half (`hasPrivate`); the serializations of a freshly
generated identity (`toString(true)` / `toString(false)`); the success
of each `dataStorePut` by key; and the outcome of the post-identity
phases. -/
structure CtorOracle where
  identityOk : String → Bool
  newSecretStr : String
  newPublicStr : String
  putOk : String → Bool
  latePhase : LatePhaseOutcome

/-- Outcome of `ZT1_Node_new`: the mapped result code and the list of
successful `dataStorePut` writes `(name, data, secure)` issued during
construction. -/
structure CtorResult where
  result : ZT1_ResultCode
  puts : List (String × String × Bool)

/-- The result mapping of `ZT1_Node_new` for the phases after identity
bootstrap: `std::bad_alloc` → out-of-memory, `std::runtime_error` →
data-store-failed, any other exception → internal. -/
def latePhaseResult (p : LatePhaseOutcome) : ZT1_ResultCode :=
  match p with
  | LatePhaseOutcome.ok => ZT1_ResultCode.OK
  | LatePhaseOutcome.badAlloc => ZT1_ResultCode.FATAL_ERROR_OUT_OF_MEMORY
  | LatePhaseOutcome.runtimeError => ZT1_ResultCode.FATAL_ERROR_DATA_STORE_FAILED
  | LatePhaseOutcome.otherThrow => ZT1_ResultCode.FATAL_ERROR_INTERNAL

/-- `ZT1_Node_new` wrapping `Node::Node`: load `identity.secret` through
`dataStoreGet` (empty string means absent); if it is empty, fails to
parse, or lacks the private half, generate a new identity and persist
`identity.secret` (secure) then `identity.public` (non-secure) — a
failed `dataStorePut` throws `std::runtime_error`, which the wrapper
maps to `ZT1_RESULT_FATAL_ERROR_DATA_STORE_FAILED`. Otherwise reuse the
loaded identity with no writes. Then run the remaining construction
phases, whose exceptions the wrapper maps per `latePhaseResult`.
The `store` argument models the embedder's data store as read by
`Node::dataStoreGet`. -/
def nodeConstruct (store : String → String) (o : CtorOracle) : CtorResult :=
  let idtmp := store "identity.secret"
  if idtmp = "" ∨ ¬ o.identityOk idtmp then
    if ¬ o.putOk "identity.secret" then
      { result := ZT1_ResultCode.FATAL_ERROR_DATA_STORE_FAILED, puts := [] }
    else if ¬ o.putOk "identity.public" then
      { result := ZT1_ResultCode.FATAL_ERROR_DATA_STORE_FAILED
        puts := [("identity.secret", o.newSecretStr, true)] }
    else
      { result := latePhaseResult o.latePhase
        puts := [("identity.secret", o.newSecretStr, true),
                 ("identity.public", o.newPublicStr, false)] }
  else
    { result := latePhaseResult o.latePhase, puts := [] }

/-! ## Registry lemmas -/

theorem applyMembershipOp_preserves_some {s : NodeState} {op : MembershipOp} {nwid : Nat}
    (hop : op.isLeaveOf nwid = false) (h : (s.networks nwid).isSome) :
    ((applyMembershipOp s op).networks nwid).isSome := by
  cases op with
  | join m =>
      simp only [applyMembershipOp, Node.join]
      cases hm : s.networks m with
      | some n => simpa using h
      | none =>
          by_cases hnm : nwid = m
          · simp [hnm]
          · simpa [hnm] using h
  | leave m =>
      simp only [MembershipOp.isLeaveOf, decide_eq_false_iff_not] at hop
      have hnm : nwid ≠ m := fun hh => hop hh.symm
      simp only [applyMembershipOp, Node.leave]
      cases hm : s.networks m with
      | some n => simpa [hnm] using h
      | none => simpa using h
  | mcSub m g adi =>
      simp only [applyMembershipOp, Node.multicastSubscribe]
      cases hm : s.networks m with
      | some n =>
          by_cases hnm : nwid = m
          · simp [hnm]
          · simpa [hnm] using h
      | none => simpa using h
  | mcUnsub m g adi =>
      simp only [applyMembershipOp, Node.multicastUnsubscribe]
      cases hm : s.networks m with
      | some n =>
          by_cases hnm : nwid = m
          · simp [hnm]
          · simpa [hnm] using h
      | none => simpa using h

theorem applyMembershipOp_preserves_none {s : NodeState} {op : MembershipOp} {nwid : Nat}
    (hop : op.isJoinOf nwid = false) (h : s.networks nwid = none) :
    (applyMembershipOp s op).networks nwid = none := by
  cases op with
  | join m =>
      simp only [MembershipOp.isJoinOf, decide_eq_false_iff_not] at hop
      have hnm : nwid ≠ m := fun hh => hop hh.symm
      simp only [applyMembershipOp, Node.join]
      cases hm : s.networks m with
      | some n => simpa using h
      | none => simpa [hnm] using h
  | leave m =>
      simp only [applyMembershipOp, Node.leave]
      cases hm : s.networks m with
      | some n =>
          by_cases hnm : nwid = m
          · simp [hnm]
          · simpa [hnm] using h
      | none => simpa using h
  | mcSub m g adi =>
      simp only [applyMembershipOp, Node.multicastSubscribe]
      cases hm : s.networks m with
      | some n =>
          by_cases hnm : nwid = m
          · rw [hnm] at h; rw [h] at hm; cases hm
          · simpa [hnm] using h
      | none => simpa using h
  | mcUnsub m g adi =>
      simp only [applyMembershipOp, Node.multicastUnsubscribe]
      cases hm : s.networks m with
      | some n =>
          by_cases hnm : nwid = m
          · rw [hnm] at h; rw [h] at hm; cases hm
          · simpa [hnm] using h
      | none => simpa using h

theorem applyMembershipOps_preserves_some {nwid : Nat} {ops : List MembershipOp}
    (hops : ∀ op ∈ ops, op.isLeaveOf nwid = false) :
    ∀ s : NodeState, (s.networks nwid).isSome →
      ((applyMembershipOps s ops).networks nwid).isSome := by
  induction ops with
  | nil => intro s h; simpa [applyMembershipOps] using h
  | cons op rest ih =>
      intro s h
      have h1 := applyMembershipOp_preserves_some (hops op (by simp)) h
      have hrest : ∀ op ∈ rest, op.isLeaveOf nwid = false := fun o ho =>
        hops o (by simp [ho])
      simpa [applyMembershipOps] using ih hrest (applyMembershipOp s op) h1

theorem applyMembershipOps_preserves_none {nwid : Nat} {ops : List MembershipOp}
    (hops : ∀ op ∈ ops, op.isJoinOf nwid = false) :
    ∀ s : NodeState, s.networks nwid = none →
      (applyMembershipOps s ops).networks nwid = none := by
  induction ops with
  | nil => intro s h; simpa [applyMembershipOps] using h
  | cons op rest ih =>
      intro s h
      have h1 := applyMembershipOp_preserves_none (hops op (by simp)) h
      have hrest : ∀ op ∈ rest, op.isJoinOf nwid = false := fun o ho =>
        hops o (by simp [ho])
      simpa [applyMembershipOps] using ih hrest (applyMembershipOp s op) h1

theorem join_networks_isSome (s : NodeState) (nwid : Nat) :
    (((Node.join s nwid).1).networks nwid).isSome := by
  simp only [Node.join]
  cases hm : s.networks nwid with
  | some n => simp [hm]
  | none => simp

theorem leave_networks_eq_none (s : NodeState) (nwid : Nat) :
    ((Node.leave s nwid).state).networks nwid = none := by
  simp only [Node.leave]
  cases hm : s.networks nwid with
  | some n => simp
  | none => simpa using hm

/-! ## Claims about the membership operations -/

/-- C3: after `join(nwid)` (which returns OK), `networkConfig(nwid)` is
non-null across any further membership calls that do not include
`leave(nwid)`; and after `leave(nwid)`, `networkConfig(nwid)` is null
across any further membership calls that do not include `join(nwid)`. -/
theorem networkConfig_after_join_until_leave (s : NodeState) (nwid : Nat)
    (ops : List MembershipOp) :
    (Node.join s nwid).2 = ZT1_ResultCode.OK ∧
    ((∀ op ∈ ops, op.isLeaveOf nwid = false) →
      Node.networkConfig (applyMembershipOps (Node.join s nwid).1 ops) nwid ≠ none) ∧
    ((∀ op ∈ ops, op.isJoinOf nwid = false) →
      Node.networkConfig (applyMembershipOps (Node.leave s nwid).state ops) nwid = none) := by
  refine ⟨?_, ?_, ?_⟩
  · simp only [Node.join]
    cases hm : s.networks nwid <;> simp
  · intro hops
    have := applyMembershipOps_preserves_some hops _ (join_networks_isSome s nwid)
    simpa [Node.networkConfig, Option.isSome_iff_ne_none] using this
  · intro hops
    exact applyMembershipOps_preserves_none hops _ (leave_networks_eq_none s nwid)

/-- Witness for C3 at a concrete call sequence. -/
theorem networkConfig_after_join_until_leave_at_5 :
    Node.networkConfig
      (applyMembershipOps (Node.join (NodeState.init 0 (1, 0, 0)) 5).1
        [MembershipOp.join 7, MembershipOp.mcSub 5 1 2, MembershipOp.leave 9]) 5 ≠ none :=
  (networkConfig_after_join_until_leave (NodeState.init 0 (1, 0, 0)) 5
    [MembershipOp.join 7, MembershipOp.mcSub 5 1 2, MembershipOp.leave 9]).2.1
    (by decide)

/-- C4: `Node::leave` reaches the end of the function without executing
a `return` statement, on the present path and on the absent path alike,
so it never produces the `OK` result (or any result) that the
specification requires. -/
theorem leave_produces_no_result (s : NodeState) (nwid : Nat) :
    (Node.leave s nwid).ret = none ∧
    (Node.leave s nwid).ret ≠ some ZT1_ResultCode.OK := by
  simp only [Node.leave]
  cases hm : s.networks nwid <;> simp

/-- Witness for C4: leaving network 5 of a freshly constructed node
produces no result value. -/
theorem leave_produces_no_result_at_5 :
    (Node.leave (NodeState.init 0 (1, 0, 0)) 5).ret = none :=
  (leave_produces_no_result (NodeState.init 0 (1, 0, 0)) 5).1

/-- C5: `join` is idempotent — a second `join(x)` leaves the state and
result of the first unchanged — and `join` always returns OK. -/
theorem join_idempotent (s : NodeState) (x : Nat) :
    Node.join (Node.join s x).1 x = Node.join s x ∧
    (Node.join s x).2 = ZT1_ResultCode.OK := by
  constructor
  · cases hm : s.networks x with
    | some n => simp [Node.join, hm]
    | none => simp [Node.join, hm]
  · cases hm : s.networks x <;> simp [Node.join, hm]

/-! ## Background-tick projection lemmas -/

theorem tickDeadlinePhase_state (C : Consts) (s : NodeState) (now : Nat)
    (o : TickOracle) (rp rh : Bool) :
    (tickDeadlinePhase C s now o rp rh).state = s := by
  unfold tickDeadlinePhase
  cases o.switchTimer <;> rfl

theorem tickDeadlinePhase_ranPing (C : Consts) (s : NodeState) (now : Nat)
    (o : TickOracle) (rp rh : Bool) :
    (tickDeadlinePhase C s now o rp rh).ranPing = rp := by
  unfold tickDeadlinePhase
  cases o.switchTimer <;> rfl

theorem tickDeadlinePhase_ranHousekeeping (C : Consts) (s : NodeState) (now : Nat)
    (o : TickOracle) (rp rh : Bool) :
    (tickDeadlinePhase C s now o rp rh).ranHousekeeping = rh := by
  unfold tickDeadlinePhase
  cases o.switchTimer <;> rfl

theorem tickHousekeepingPhase_ranPing (C : Consts) (s : NodeState) (now : Nat)
    (o : TickOracle) (rp : Bool) :
    (tickHousekeepingPhase C s now o rp).ranPing = rp := by
  unfold tickHousekeepingPhase
  split
  · split
    · rfl
    · split
      · rfl
      · rw [tickDeadlinePhase_ranPing]
  · rw [tickDeadlinePhase_ranPing]

theorem tickHousekeepingPhase_state_fields (C : Consts) (s : NodeState) (now : Nat)
    (o : TickOracle) (rp : Bool) :
    (tickHousekeepingPhase C s now o rp).state.lastPingCheck = s.lastPingCheck ∧
    (tickHousekeepingPhase C s now o rp).state.startTimeAfterInactivity =
      s.startTimeAfterInactivity ∧
    (tickHousekeepingPhase C s now o rp).state.coreDesperation = s.coreDesperation ∧
    (tickHousekeepingPhase C s now o rp).state.networks = s.networks ∧
    (tickHousekeepingPhase C s now o rp).state.now = s.now := by
  unfold tickHousekeepingPhase
  split
  · split
    · exact ⟨rfl, rfl, rfl, rfl, rfl⟩
    · split
      · exact ⟨rfl, rfl, rfl, rfl, rfl⟩
      · rw [tickDeadlinePhase_state]
        exact ⟨rfl, rfl, rfl, rfl, rfl⟩
  · rw [tickDeadlinePhase_state]
    exact ⟨rfl, rfl, rfl, rfl, rfl⟩

theorem tickHousekeepingPhase_ranHousekeeping_false (C : Consts) (s : NodeState)
    (now : Nat) (o : TickOracle) (rp : Bool)
    (h : ¬ C.housekeepingPeriod ≤ sub64 now s.lastHousekeepingRun) :
    (tickHousekeepingPhase C s now o rp).ranHousekeeping = false := by
  unfold tickHousekeepingPhase
  rw [if_neg h, tickDeadlinePhase_ranHousekeeping]

theorem tickHousekeepingPhase_lastHousekeeping (C : Consts) (s : NodeState)
    (now : Nat) (o : TickOracle) (rp : Bool) :
    (tickHousekeepingPhase C s now o rp).ranHousekeeping = true →
      (tickHousekeepingPhase C s now o rp).state.lastHousekeepingRun = now := by
  unfold tickHousekeepingPhase
  split
  · intro _
    split
    · rfl
    · split
      · rfl
      · rw [tickDeadlinePhase_state]
  · rw [tickDeadlinePhase_state, tickDeadlinePhase_ranHousekeeping]
    intro h
    cases h

theorem tickHousekeepingPhase_lastHousekeeping_unchanged (C : Consts) (s : NodeState)
    (now : Nat) (o : TickOracle) (rp : Bool)
    (h : ¬ C.housekeepingPeriod ≤ sub64 now s.lastHousekeepingRun) :
    (tickHousekeepingPhase C s now o rp).state.lastHousekeepingRun =
      s.lastHousekeepingRun := by
  unfold tickHousekeepingPhase
  rw [if_neg h, tickDeadlinePhase_state]

theorem pingStartAdvance_fields (C : Consts) (s : NodeState) (now : Nat) :
    (pingStartAdvance C s now).lastPingCheck = s.lastPingCheck ∧
    (pingStartAdvance C s now).lastHousekeepingRun = s.lastHousekeepingRun ∧
    (pingStartAdvance C s now).coreDesperation = s.coreDesperation ∧
    (pingStartAdvance C s now).networks = s.networks ∧
    (pingStartAdvance C s now).now = s.now := by
  unfold pingStartAdvance
  split <;> exact ⟨rfl, rfl, rfl, rfl, rfl⟩

theorem pingStartAdvance_start (C : Consts) (s : NodeState) (now : Nat) :
    (pingStartAdvance C s now).startTimeAfterInactivity =
      (if C.pingCheckInterval * 3 < sub64 now s.startTimeAfterInactivity
       then now else s.startTimeAfterInactivity) := by
  unfold pingStartAdvance
  split <;> simp_all

theorem pingDesperationUpdate_fields (C : Consts) (s : NodeState) (now lr : Nat) :
    (pingDesperationUpdate C s now lr).lastPingCheck = s.lastPingCheck ∧
    (pingDesperationUpdate C s now lr).lastHousekeepingRun = s.lastHousekeepingRun ∧
    (pingDesperationUpdate C s now lr).startTimeAfterInactivity =
      s.startTimeAfterInactivity ∧
    (pingDesperationUpdate C s now lr).networks = s.networks ∧
    (pingDesperationUpdate C s now lr).now = s.now := by
  exact ⟨rfl, rfl, rfl, rfl, rfl⟩

theorem processBackgroundTasks_ranPing_lastPing (C : Consts) (s : NodeState)
    (now : Nat) (o : TickOracle) :
    (processBackgroundTasks C s now o).ranPing = true →
      (processBackgroundTasks C s now o).state.lastPingCheck = now := by
  cases hping : o.pingResult with
  | error e =>
      simp only [processBackgroundTasks, hping]
      split
      · intro _
        exact (pingStartAdvance_fields C _ now).1
      · rw [tickHousekeepingPhase_ranPing]
        intro h
        cases h
  | ok lr =>
      simp only [processBackgroundTasks, hping]
      split
      · split
        · intro _
          rw [(pingDesperationUpdate_fields C _ now lr).1]
          exact (pingStartAdvance_fields C _ now).1
        · intro _
          rw [(tickHousekeepingPhase_state_fields C _ now o true).1,
            (pingDesperationUpdate_fields C _ now lr).1]
          exact (pingStartAdvance_fields C _ now).1
      · rw [tickHousekeepingPhase_ranPing]
        intro h
        cases h

theorem processBackgroundTasks_ranPing_false (C : Consts) (s : NodeState)
    (now : Nat) (o : TickOracle)
    (h : ¬ C.pingCheckInterval ≤ sub64 now s.lastPingCheck) :
    (processBackgroundTasks C s now o).ranPing = false := by
  simp only [processBackgroundTasks]
  rw [if_neg (by simpa using h), tickHousekeepingPhase_ranPing]

theorem processBackgroundTasks_ranHousekeeping_lastHousekeeping (C : Consts)
    (s : NodeState) (now : Nat) (o : TickOracle) :
    (processBackgroundTasks C s now o).ranHousekeeping = true →
      (processBackgroundTasks C s now o).state.lastHousekeepingRun = now := by
  cases hping : o.pingResult with
  | error e =>
      simp only [processBackgroundTasks, hping]
      split
      · intro h
        cases h
      · exact tickHousekeepingPhase_lastHousekeeping C _ now o false
  | ok lr =>
      simp only [processBackgroundTasks, hping]
      split
      · split
        · intro h
          cases h
        · exact tickHousekeepingPhase_lastHousekeeping C _ now o true
      · exact tickHousekeepingPhase_lastHousekeeping C _ now o false

theorem processBackgroundTasks_ranHousekeeping_false (C : Consts) (s : NodeState)
    (now : Nat) (o : TickOracle)
    (h : ¬ C.housekeepingPeriod ≤ sub64 now s.lastHousekeepingRun) :
    (processBackgroundTasks C s now o).ranHousekeeping = false := by
  cases hping : o.pingResult with
  | error e =>
      simp only [processBackgroundTasks, hping]
      split
      · rfl
      · exact tickHousekeepingPhase_ranHousekeeping_false C _ now o false (by simpa using h)
  | ok lr =>
      simp only [processBackgroundTasks, hping]
      split
      · split
        · rfl
        · apply tickHousekeepingPhase_ranHousekeeping_false C _ now o true
          rw [(pingDesperationUpdate_fields C _ now lr).2.1,
            (pingStartAdvance_fields C _ now).2.1]
          simpa using h
      · exact tickHousekeepingPhase_ranHousekeeping_false C _ now o false (by simpa using h)

theorem processBackgroundTasks_networks (C : Consts) (s : NodeState)
    (now : Nat) (o : TickOracle) :
    (processBackgroundTasks C s now o).state.networks = s.networks := by
  cases hping : o.pingResult with
  | error e =>
      simp only [processBackgroundTasks, hping]
      split
      · exact (pingStartAdvance_fields C _ now).2.2.2.1
      · exact (tickHousekeepingPhase_state_fields C _ now o false).2.2.2.1
  | ok lr =>
      simp only [processBackgroundTasks, hping]
      split
      · split
        · rw [(pingDesperationUpdate_fields C _ now lr).2.2.2.1]
          exact (pingStartAdvance_fields C _ now).2.2.2.1
        · rw [(tickHousekeepingPhase_state_fields C _ now o true).2.2.2.1,
            (pingDesperationUpdate_fields C _ now lr).2.2.2.1]
          exact (pingStartAdvance_fields C _ now).2.2.2.1
      · exact (tickHousekeepingPhase_state_fields C _ now o false).2.2.2.1

/-! ## Concrete instances for witnesses -/

/-- Example constant values (milliseconds), with the granularity below
the ping-check interval as the deadline clamp requires. -/
def constsEx : Consts := ⟨62500, 500, 4, 120000, 60000⟩

/-- A tick in which every external call completes normally. -/
def tickOkEx : TickOracle := ⟨Except.ok 0, false, false, false, Except.ok 1000⟩

/-- A tick in which the peer-iteration phase throws. -/
def tickFailEx : TickOracle := ⟨Except.error (), false, false, false, Except.ok 1000⟩

/-! ## C10: interval gates advance before the subroutines run -/

/-- C10: whenever a tick enters the ping-check block (respectively the
housekeeping block) its gate `_lastPingCheck` (respectively
`_lastHousekeepingRun`) is already `now` in the resulting state — the
gate is written before the subroutine bodies, so it is `now` even when
a body throws — and a subsequent tick within the corresponding
interval does not enter that block again, for any outcome of the second
tick's external calls. -/
theorem gates_advance_before_subroutines (C : Consts) (s : NodeState)
    (now : Nat) (o : TickOracle) (now2 : Nat) (o2 : TickOracle)
    (h3 : now ≤ now2) (h4 : now2 < W64) :
    ((processBackgroundTasks C s now o).ranPing = true →
      (processBackgroundTasks C s now o).state.lastPingCheck = now ∧
      (now2 - now < C.pingCheckInterval →
        (processBackgroundTasks C (processBackgroundTasks C s now o).state now2 o2).ranPing
          = false)) ∧
    ((processBackgroundTasks C s now o).ranHousekeeping = true →
      (processBackgroundTasks C s now o).state.lastHousekeepingRun = now ∧
      (now2 - now < C.housekeepingPeriod →
        (processBackgroundTasks C (processBackgroundTasks C s now o).state now2 o2).ranHousekeeping
          = false)) := by
  constructor
  · intro hran
    have hlp := processBackgroundTasks_ranPing_lastPing C s now o hran
    refine ⟨hlp, fun hlt => ?_⟩
    apply processBackgroundTasks_ranPing_false
    rw [hlp, sub64_eq_of_le h3 h4]
    omega
  · intro hran
    have hlh := processBackgroundTasks_ranHousekeeping_lastHousekeeping C s now o hran
    refine ⟨hlh, fun hlt => ?_⟩
    apply processBackgroundTasks_ranHousekeeping_false
    rw [hlh, sub64_eq_of_le h3 h4]
    omega

/-- Witness for C10: a tick at 100000 whose ping phase throws (the call
returns internal error), followed one millisecond later by a second
tick that does not re-enter the ping block. -/
theorem gates_advance_before_subroutines_at_100000 :
    (processBackgroundTasks constsEx (NodeState.init 0 (1, 0, 0)) 100000 tickFailEx).result
      = ZT1_ResultCode.FATAL_ERROR_INTERNAL ∧
    (processBackgroundTasks constsEx
      (processBackgroundTasks constsEx (NodeState.init 0 (1, 0, 0)) 100000 tickFailEx).state
      100001 tickOkEx).ranPing = false :=
  ⟨by decide,
   ((gates_advance_before_subroutines constsEx (NodeState.init 0 (1, 0, 0)) 100000
      tickFailEx 100001 tickOkEx (by decide) (by decide)).1 (by decide)).2 (by decide)⟩

/-! ## C1: the deadline written by an OK tick -/

theorem tickDeadlinePhase_of_result_ok (C : Consts) (s : NodeState) (now : Nat)
    (o : TickOracle) (rp rh : Bool) :
    (tickDeadlinePhase C s now o rp rh).result = ZT1_ResultCode.OK →
      ∃ i, o.switchTimer = Except.ok i ∧
        (tickDeadlinePhase C s now o rp rh).nextDeadline =
          some (add64 now (max (min C.pingCheckInterval i) C.timerGranularity)) := by
  unfold tickDeadlinePhase
  cases hsw : o.switchTimer with
  | error e => intro h; simp at h
  | ok i => intro _; exact ⟨i, rfl, rfl⟩

theorem tickHousekeepingPhase_of_result_ok (C : Consts) (s : NodeState) (now : Nat)
    (o : TickOracle) (rp : Bool) :
    (tickHousekeepingPhase C s now o rp).result = ZT1_ResultCode.OK →
      ∃ i, o.switchTimer = Except.ok i ∧
        (tickHousekeepingPhase C s now o rp).nextDeadline =
          some (add64 now (max (min C.pingCheckInterval i) C.timerGranularity)) := by
  unfold tickHousekeepingPhase
  split
  · split
    · intro h; simp at h
    · split
      · intro h; simp at h
      · exact tickDeadlinePhase_of_result_ok C _ now o rp true
  · exact tickDeadlinePhase_of_result_ok C _ now o rp false

theorem processBackgroundTasks_of_result_ok (C : Consts) (s : NodeState) (now : Nat)
    (o : TickOracle) :
    (processBackgroundTasks C s now o).result = ZT1_ResultCode.OK →
      ∃ i, o.switchTimer = Except.ok i ∧
        (processBackgroundTasks C s now o).nextDeadline =
          some (add64 now (max (min C.pingCheckInterval i) C.timerGranularity)) := by
  cases hping : o.pingResult with
  | error e =>
      simp only [processBackgroundTasks, hping]
      split
      · intro h; simp at h
      · exact tickHousekeepingPhase_of_result_ok C _ now o false
  | ok lr =>
      simp only [processBackgroundTasks, hping]
      split
      · split
        · intro h; simp at h
        · exact tickHousekeepingPhase_of_result_ok C _ now o true
      · exact tickHousekeepingPhase_of_result_ok C _ now o false

/-- C1: when `processBackgroundTasks` returns OK, the value it wrote to
`*nextBackgroundTaskDeadline` is `now + max(min(PING_CHECK_INTERVAL,
switchInterval), CORE_TIMER_GRANULARITY)` — the switch's requested
interval clamped between the granularity and the ping-check interval —
and therefore lies in
`[now + CORE_TIMER_GRANULARITY, now + PING_CHECK_INTERVAL]` (granted
`CORE_TIMER_GRANULARITY ≤ PING_CHECK_INTERVAL` and no `uint64_t`
overflow of `now + PING_CHECK_INTERVAL`). -/
theorem deadline_is_clamped_switch_interval (C : Consts) (s : NodeState)
    (now : Nat) (o : TickOracle)
    (hGP : C.timerGranularity ≤ C.pingCheckInterval)
    (hov : now + C.pingCheckInterval < W64)
    (hok : (processBackgroundTasks C s now o).result = ZT1_ResultCode.OK) :
    ∃ i, o.switchTimer = Except.ok i ∧
      (processBackgroundTasks C s now o).nextDeadline =
        some (now + max (min C.pingCheckInterval i) C.timerGranularity) ∧
      now + C.timerGranularity ≤ now + max (min C.pingCheckInterval i) C.timerGranularity ∧
      now + max (min C.pingCheckInterval i) C.timerGranularity ≤ now + C.pingCheckInterval := by
  obtain ⟨i, hsw, hdl⟩ := processBackgroundTasks_of_result_ok C s now o hok
  have hclamp : max (min C.pingCheckInterval i) C.timerGranularity ≤ C.pingCheckInterval :=
    max_le (min_le_left _ _) hGP
  have hadd : add64 now (max (min C.pingCheckInterval i) C.timerGranularity) =
      now + max (min C.pingCheckInterval i) C.timerGranularity :=
    add64_eq_of_lt (lt_of_le_of_lt (Nat.add_le_add_left hclamp now) hov)
  refine ⟨i, hsw, by rw [hdl, hadd], ?_, ?_⟩
  · exact Nat.add_le_add_left (le_max_right _ _) now
  · exact Nat.add_le_add_left hclamp now

/-- Witness for C1: an all-OK tick at `now = 100000` with the switch
requesting 1000 ms writes the deadline 101000, inside
`[100500, 162500]`. -/
theorem deadline_is_clamped_switch_interval_at_100000 :
    (processBackgroundTasks constsEx (NodeState.init 0 (1, 0, 0)) 100000 tickOkEx).nextDeadline
      = some 101000 := by
  obtain ⟨i, hsw, hdl, _, _⟩ := deadline_is_clamped_switch_interval constsEx
    (NodeState.init 0 (1, 0, 0)) 100000 tickOkEx (by decide) (by decide) (by decide)
  have hi : (Except.ok 1000 : Except Unit Nat) = Except.ok i := hsw
  cases hi
  rw [hdl]
  decide

/-! ## C2: the desperation computation of the ping-check block -/

theorem processBackgroundTasks_ping_ok_fields (C : Consts) (s : NodeState)
    (now lr : Nat) (o : TickOracle) (hping : o.pingResult = Except.ok lr)
    (hgate : C.pingCheckInterval ≤ sub64 now s.lastPingCheck) :
    (processBackgroundTasks C s now o).state.startTimeAfterInactivity =
      (pingStartAdvance C { s with now := now, lastPingCheck := now } now).startTimeAfterInactivity ∧
    (processBackgroundTasks C s now o).state.coreDesperation =
      (pingDesperationUpdate C (pingStartAdvance C { s with now := now, lastPingCheck := now } now)
        now lr).coreDesperation := by
  simp only [processBackgroundTasks, hping]
  rw [if_pos (show C.pingCheckInterval ≤
    sub64 now ({ s with now := now } : NodeState).lastPingCheck from hgate)]
  cases hauto : o.autoconfThrows with
  | true =>
      rw [if_pos rfl]
      exact ⟨(pingDesperationUpdate_fields C _ now lr).2.2.1, rfl⟩
  | false =>
      rw [if_neg (by simp)]
      constructor
      · rw [(tickHousekeepingPhase_state_fields C _ now o true).2.1]
        exact (pingDesperationUpdate_fields C _ now lr).2.2.1
      · exact (tickHousekeepingPhase_state_fields C _ now o true).2.2.1

/-- C2 (amended): on a tick that enters the ping-check block with the
peer iteration completing, `_startTimeAfterInactivity` is advanced to
`now` exactly when `now − startTimeAfterInactivity > 3 × PING_CHECK_INTERVAL`
— regardless of supernode contact — and the new desperation level is
`(now − max(startTimeAfterInactivity′, maxSupernodeLastReceive)) /
(PING_CHECK_INTERVAL × DESPERATION_INCREMENT)` with the post-advance
start-of-activity value, under no machine-integer overflow. -/
theorem desperation_formula (C : Consts) (s : NodeState) (now lr : Nat)
    (o : TickOracle)
    (hnow : now < W64) (hlp : s.lastPingCheck ≤ now)
    (hst : s.startTimeAfterInactivity ≤ now) (hlr : lr ≤ now)
    (hgate : C.pingCheckInterval ≤ now - s.lastPingCheck)
    (hping : o.pingResult = Except.ok lr)
    (hq : (now - max (if C.pingCheckInterval * 3 < now - s.startTimeAfterInactivity then now
            else s.startTimeAfterInactivity) lr) /
          (C.pingCheckInterval * C.desperationIncrement) < W32) :
    (processBackgroundTasks C s now o).state.startTimeAfterInactivity =
      (if C.pingCheckInterval * 3 < now - s.startTimeAfterInactivity then now
       else s.startTimeAfterInactivity) ∧
    (processBackgroundTasks C s now o).state.coreDesperation =
      (now - max (if C.pingCheckInterval * 3 < now - s.startTimeAfterInactivity then now
        else s.startTimeAfterInactivity) lr) /
      (C.pingCheckInterval * C.desperationIncrement) := by
  have e1 : sub64 now s.lastPingCheck = now - s.lastPingCheck := sub64_eq_of_le hlp hnow
  obtain ⟨hstart, hdesp⟩ := processBackgroundTasks_ping_ok_fields C s now lr o hping
    (by rw [e1]; exact hgate)
  have hstadv : (pingStartAdvance C { s with now := now, lastPingCheck := now }
      now).startTimeAfterInactivity =
      (if C.pingCheckInterval * 3 < now - s.startTimeAfterInactivity then now
       else s.startTimeAfterInactivity) := by
    rw [pingStartAdvance_start,
      show ({ s with now := now, lastPingCheck := now } : NodeState).startTimeAfterInactivity
        = s.startTimeAfterInactivity from rfl,
      sub64_eq_of_le hst hnow]
  have hstle : (if C.pingCheckInterval * 3 < now - s.startTimeAfterInactivity then now
      else s.startTimeAfterInactivity) ≤ now := by
    split
    · exact le_rfl
    · exact hst
  constructor
  · rw [hstart, hstadv]
  · rw [hdesp]
    simp only [pingDesperationUpdate]
    rw [hstadv, sub64_eq_of_le (max_le hstle hlr) hnow]
    exact Nat.mod_eq_of_lt hq

/-- Witness for C2 (amended): cold state, tick at `now = 250000` with the
supernode last-receive accumulator 0: the start-of-activity advances to
250000 (the gap 250000 exceeds `3 × 62500`) and the desperation becomes
`(250000 − 250000) / 250000 = 0`. -/
theorem desperation_formula_at_250000 :
    (processBackgroundTasks constsEx (NodeState.init 0 (1, 0, 0)) 250000
      tickOkEx).state.startTimeAfterInactivity = 250000 ∧
    (processBackgroundTasks constsEx (NodeState.init 0 (1, 0, 0)) 250000
      tickOkEx).state.coreDesperation = 0 := by
  obtain ⟨h1, h2⟩ := desperation_formula constsEx (NodeState.init 0 (1, 0, 0)) 250000 0
    tickOkEx (by decide) (by decide) (by decide) (by decide) (by decide) rfl (by decide)
  refine ⟨?_, ?_⟩
  · rw [h1]; decide
  · rw [h2]; decide

/-- A tick whose peer iteration reports a supernode `lastReceive` equal
to `now` itself (contact at this very moment). -/
def tickContactEx : TickOracle := ⟨Except.ok 250000, false, false, false, Except.ok 1000⟩

/-- Counterexample to C2 as stated: the claim allows the
start-of-activity advance only "with no contact having occurred", but
the code's condition is just the 3-interval gap. Here the supernode
last-receive time equals `now = 250000` — contact at this very tick —
yet the tick still advances `_startTimeAfterInactivity` from 0 to
250000. -/
theorem start_advance_ignores_contact :
    tickContactEx.pingResult = Except.ok 250000 ∧
    (NodeState.init 0 (1, 0, 0)).startTimeAfterInactivity = 0 ∧
    (processBackgroundTasks constsEx (NodeState.init 0 (1, 0, 0)) 250000
      tickContactEx).state.startTimeAfterInactivity = 250000 :=
  ⟨rfl, rfl, by decide⟩

/-! ## C6: wire-packet ingress -/

/-- C6: in `ZT1_Node_processWirePacket`, when `now` has reached the
stored deadline the background tick runs first and a non-OK tick result
is returned without the packet being handed to the switch; in every
other case the packet is handed to the switch and the call returns OK
on normal completion, out-of-memory on `std::bad_alloc`, and
packet-invalid on any other failure. -/
theorem wirePacket_behavior (C : Consts) (s : NodeState) (now deadline : Nat)
    (o : TickOracle) (sw : SwitchOutcome) :
    (deadline ≤ now → (processBackgroundTasks C s now o).result ≠ ZT1_ResultCode.OK →
      (processWirePacket C s now deadline o sw).result =
        (processBackgroundTasks C s now o).result ∧
      (processWirePacket C s now deadline o sw).switchInvoked = false) ∧
    ((now < deadline ∨ (processBackgroundTasks C s now o).result = ZT1_ResultCode.OK) →
      (processWirePacket C s now deadline o sw).switchInvoked = true ∧
      (processWirePacket C s now deadline o sw).result =
        (match sw with
         | SwitchOutcome.ok => ZT1_ResultCode.OK
         | SwitchOutcome.badAlloc => ZT1_ResultCode.FATAL_ERROR_OUT_OF_MEMORY
         | SwitchOutcome.otherThrow => ZT1_ResultCode.ERROR_PACKET_INVALID)) := by
  constructor
  · intro hd hne
    simp only [processWirePacket]
    rw [if_pos hd, if_pos hne]
    exact ⟨rfl, rfl⟩
  · intro hor
    rcases hor with hlt | hok
    · simp only [processWirePacket]
      rw [if_neg (by omega)]
      cases sw <;> exact ⟨rfl, rfl⟩
    · by_cases hd : deadline ≤ now
      · simp only [processWirePacket]
        rw [if_pos hd, if_neg (by simp [hok])]
        cases sw <;> exact ⟨rfl, rfl⟩
      · simp only [processWirePacket]
        rw [if_neg hd]
        cases sw <;> exact ⟨rfl, rfl⟩

/-- Witness for C6: a packet at `now = 5` with the stored deadline 10 is
handed to the switch and the call returns OK. -/
theorem wirePacket_behavior_at_5 :
    (processWirePacket constsEx (NodeState.init 0 (1, 0, 0)) 5 10 tickOkEx
      SwitchOutcome.ok).switchInvoked = true ∧
    (processWirePacket constsEx (NodeState.init 0 (1, 0, 0)) 5 10 tickOkEx
      SwitchOutcome.ok).result = ZT1_ResultCode.OK :=
  (wirePacket_behavior constsEx (NodeState.init 0 (1, 0, 0)) 5 10 tickOkEx
    SwitchOutcome.ok).2 (Or.inl (by decide))

/-! ## C8: virtual-network frame egress -/

/-- Counterexample to C8 as stated: a call with an absent network id
does not always return `ERROR_NETWORK_NOT_FOUND` — here `now` has
reached the stored deadline, the preamble background tick runs, its
peer-iteration phase throws, and the call returns
`FATAL_ERROR_INTERNAL` although network 5 is absent. -/
theorem virtualFrame_not_found_claim_false :
    (NodeState.init 0 (1, 0, 0)).networks 5 = none ∧
    (processVirtualNetworkFrame constsEx (NodeState.init 0 (1, 0, 0)) 200000 0 5
      tickFailEx false).result = ZT1_ResultCode.FATAL_ERROR_INTERNAL ∧
    ZT1_ResultCode.FATAL_ERROR_INTERNAL ≠ ZT1_ResultCode.ERROR_NETWORK_NOT_FOUND :=
  ⟨rfl, by decide, by decide⟩

/-- C8 (amended): when the call reaches the network lookup — that is,
`now` is before the stored deadline, or the triggered background tick
returned OK — an absent `nwid` yields `ERROR_NETWORK_NOT_FOUND` without
invoking the switch and with no state effect beyond the clock advance
(and, when it ran, the background tick's own effects); and a present
`nwid` with the switch throwing yields `FATAL_ERROR_INTERNAL`. -/
theorem virtualFrame_behavior (C : Consts) (s : NodeState)
    (now deadline nwid : Nat) (o : TickOracle) (swThrows : Bool) :
    (now < deadline → s.networks nwid = none →
      (processVirtualNetworkFrame C s now deadline nwid o swThrows).result =
        ZT1_ResultCode.ERROR_NETWORK_NOT_FOUND ∧
      (processVirtualNetworkFrame C s now deadline nwid o swThrows).switchInvoked = false ∧
      (processVirtualNetworkFrame C s now deadline nwid o swThrows).state =
        { s with now := now }) ∧
    (deadline ≤ now → (processBackgroundTasks C s now o).result = ZT1_ResultCode.OK →
      s.networks nwid = none →
      (processVirtualNetworkFrame C s now deadline nwid o swThrows).result =
        ZT1_ResultCode.ERROR_NETWORK_NOT_FOUND ∧
      (processVirtualNetworkFrame C s now deadline nwid o swThrows).switchInvoked = false ∧
      (processVirtualNetworkFrame C s now deadline nwid o swThrows).state =
        (processBackgroundTasks C s now o).state) ∧
    (now < deadline → (s.networks nwid).isSome → swThrows = true →
      (processVirtualNetworkFrame C s now deadline nwid o swThrows).result =
        ZT1_ResultCode.FATAL_ERROR_INTERNAL) ∧
    (deadline ≤ now → (processBackgroundTasks C s now o).result = ZT1_ResultCode.OK →
      (s.networks nwid).isSome → swThrows = true →
      (processVirtualNetworkFrame C s now deadline nwid o swThrows).result =
        ZT1_ResultCode.FATAL_ERROR_INTERNAL) := by
  refine ⟨?_, ?_, ?_, ?_⟩
  · intro hlt hm
    simp only [processVirtualNetworkFrame]
    rw [if_neg (by omega)]
    simp only [hm]
    exact ⟨trivial, trivial, trivial⟩
  · intro hd hok hm
    simp only [processVirtualNetworkFrame]
    rw [if_pos hd, if_neg (by simp [hok])]
    rw [processBackgroundTasks_networks C s now o]
    simp only [hm]
    exact ⟨trivial, trivial, trivial⟩
  · intro hlt hm hsw
    obtain ⟨n, hn⟩ := Option.isSome_iff_exists.mp hm
    simp only [processVirtualNetworkFrame]
    rw [if_neg (by omega)]
    simp only [hn, hsw]
    rfl
  · intro hd hok hm hsw
    obtain ⟨n, hn⟩ := Option.isSome_iff_exists.mp hm
    simp only [processVirtualNetworkFrame]
    rw [if_pos hd, if_neg (by simp [hok])]
    rw [processBackgroundTasks_networks C s now o]
    simp only [hn, hsw]
    rfl

/-- Witness for C8 (amended): `now = 5` before the deadline 10 and
network 5 absent gives not-found without invoking the switch. -/
theorem virtualFrame_behavior_at_5 :
    (processVirtualNetworkFrame constsEx (NodeState.init 0 (1, 0, 0)) 5 10 5 tickOkEx
      false).result = ZT1_ResultCode.ERROR_NETWORK_NOT_FOUND ∧
    (processVirtualNetworkFrame constsEx (NodeState.init 0 (1, 0, 0)) 5 10 5 tickOkEx
      false).switchInvoked = false :=
  ⟨((virtualFrame_behavior constsEx (NodeState.init 0 (1, 0, 0)) 5 10 5 tickOkEx
      false).1 (by decide) rfl).1,
   ((virtualFrame_behavior constsEx (NodeState.init 0 (1, 0, 0)) 5 10 5 tickOkEx
      false).1 (by decide) rfl).2.1⟩

/-! ## C7: identity bootstrap at construction -/

/-- C7: at construction, when `identity.secret` is absent from the store
or fails validation, a new identity is persisted as `identity.secret`
(secure) and `identity.public` (non-secure); when either write fails the
construction result is data-store-failed; and when the loaded identity
validates, no store writes occur. -/
theorem identity_bootstrap (store : String → String) (o : CtorOracle) :
    ((store "identity.secret" = "" ∨ o.identityOk (store "identity.secret") = false) →
      (o.putOk "identity.secret" = true → o.putOk "identity.public" = true →
        (nodeConstruct store o).puts =
          [("identity.secret", o.newSecretStr, true),
           ("identity.public", o.newPublicStr, false)]) ∧
      ((o.putOk "identity.secret" = false ∨ o.putOk "identity.public" = false) →
        (nodeConstruct store o).result = ZT1_ResultCode.FATAL_ERROR_DATA_STORE_FAILED)) ∧
    (store "identity.secret" ≠ "" → o.identityOk (store "identity.secret") = true →
      (nodeConstruct store o).puts = []) := by
  constructor
  · intro hbad
    have hcond : store "identity.secret" = "" ∨
        ¬ o.identityOk (store "identity.secret") = true := by
      rcases hbad with h | h
      · exact Or.inl h
      · exact Or.inr (by simp [h])
    constructor
    · intro hp1 hp2
      simp only [nodeConstruct]
      rw [if_pos hcond, if_neg (by simp [hp1]), if_neg (by simp [hp2])]
    · intro hp
      simp only [nodeConstruct]
      rw [if_pos hcond]
      rcases hp with h | h
      · rw [if_pos (by simp [h])]
      · by_cases h1 : o.putOk "identity.secret" = true
        · rw [if_neg (by simp [h1]), if_pos (by simp [h])]
        · rw [if_pos h1]
  · intro hne hok
    simp only [nodeConstruct]
    rw [if_neg (by simp [hne, hok])]

/-- The store read of a first run: every key absent. -/
def emptyStoreEx : String → String := fun _ => ""

/-- A constructor run in which parsing and every store write succeed
and the later phases complete. -/
def ctorOracleEx : CtorOracle :=
  ⟨fun _ => true, "sec", "pub", fun _ => true, LatePhaseOutcome.ok⟩

/-- Witness for C7: construction over an empty store persists the fresh
secret (secure) and public (non-secure) serializations. -/
theorem identity_bootstrap_on_empty_store :
    (nodeConstruct emptyStoreEx ctorOracleEx).puts =
      [("identity.secret", "sec", true), ("identity.public", "pub", false)] :=
  ((identity_bootstrap emptyStoreEx ctorOracleEx).1 (Or.inl rfl)).1 rfl rfl

/-! ## C9: version gossip -/

theorem versionLt_step {a v t : Nat × Nat × Nat} (h1 : versionLt a v = false)
    (h2 : versionLt a t = true) : versionLt t v = false := by
  obtain ⟨a1, a2, a3⟩ := a
  obtain ⟨v1, v2, v3⟩ := v
  obtain ⟨t1, t2, t3⟩ := t
  simp only [versionLt, decide_eq_false_iff_not, decide_eq_true_eq] at *
  omega

theorem versionLt_le_trans {a v t : Nat × Nat × Nat} (h1 : versionLt a v = false)
    (h2 : versionLt v t = false) : versionLt a t = false := by
  obtain ⟨a1, a2, a3⟩ := a
  obtain ⟨v1, v2, v3⟩ := v
  obtain ⟨t1, t2, t3⟩ := t
  simp only [versionLt, decide_eq_false_iff_not, decide_eq_true_eq] at *
  omega

theorem compareVersion_pos_iff (m n r vm vn vr : Nat) :
    0 < compareVersion m n r vm vn vr ↔ versionLt (vm, vn, vr) (m, n, r) = true := by
  simp only [compareVersion, versionLt, decide_eq_true_eq]
  split_ifs <;> norm_num <;> omega

theorem postNewerVersion_unchanged {s : NodeState} {m n r : Nat}
    (h : versionLt s.newestVersionSeen (m, n, r) = false) :
    Node.postNewerVersionIfNewer s m n r = (s, false) := by
  unfold Node.postNewerVersionIfNewer
  rw [if_neg]
  rw [compareVersion_pos_iff]
  exact show ¬ versionLt s.newestVersionSeen (m, n, r) = true by simp [h]

theorem applyVersionCalls_invariant (v : Nat × Nat × Nat)
    (calls : List (Nat × Nat × Nat)) :
    ∀ s : NodeState, versionLt s.newestVersionSeen v = false →
      versionLt (applyVersionCalls s calls).newestVersionSeen v = false := by
  induction calls with
  | nil => intro s h; simpa [applyVersionCalls] using h
  | cons c rest ih =>
      intro s h
      have hstep :
          versionLt ((Node.postNewerVersionIfNewer s c.1 c.2.1 c.2.2).1).newestVersionSeen v
            = false := by
        unfold Node.postNewerVersionIfNewer
        split
        · rename_i hpos
          rw [compareVersion_pos_iff] at hpos
          exact versionLt_step h (show versionLt s.newestVersionSeen c = true from hpos)
        · simpa using h
      simpa [applyVersionCalls] using ih _ hstep

/-- C9: `_newestVersionSeen` starts at the compiled-in version triple,
and after any sequence of `postNewerVersionIfNewer` calls, a call with a
triple that does not lexicographically exceed the compiled-in version
leaves the stored triple unchanged and posts no
`SAW_MORE_RECENT_VERSION` event. -/
theorem version_gossip_monotone (v : Nat × Nat × Nat) (now0 : Nat)
    (calls : List (Nat × Nat × Nat)) (t : Nat × Nat × Nat)
    (h : versionLt v t = false) :
    (NodeState.init now0 v).newestVersionSeen = v ∧
    Node.postNewerVersionIfNewer (applyVersionCalls (NodeState.init now0 v) calls)
      t.1 t.2.1 t.2.2 =
      (applyVersionCalls (NodeState.init now0 v) calls, false) := by
  refine ⟨rfl, ?_⟩
  have hinv := applyVersionCalls_invariant v calls (NodeState.init now0 v) (by
    obtain ⟨v1, v2, v3⟩ := v
    simp only [NodeState.init, versionLt, decide_eq_false_iff_not]
    omega)
  exact postNewerVersion_unchanged (versionLt_le_trans hinv h)

/-- Witness for C9: starting from compiled-in version `(1,0,0)` and
having seen `(2,0,0)`, reporting `(1,0,0)` again changes nothing and
posts no event. -/
theorem version_gossip_monotone_at :
    Node.postNewerVersionIfNewer
      (applyVersionCalls (NodeState.init 0 (1, 0, 0)) [(2, 0, 0)]) 1 0 0 =
      (applyVersionCalls (NodeState.init 0 (1, 0, 0)) [(2, 0, 0)], false) :=
  (version_gossip_monotone (1, 0, 0) 0 [(2, 0, 0)] (1, 0, 0) (by decide)).2

end ZeroTier
